import Mathlib

/-!
Verification of the speech-synthesis output orchestrator
(src/agents/src/pipeline/agent_output.ts).

The TypeScript source is shallowly embedded:

* the synthesis-task loops become structural recursions over the finite list
  of events they consume;
* the SynthesisHandle state machine becomes a record with explicit
  transition functions returning the events they emit;
* the AgentOutput task list becomes a list of task identifiers subject to
  the exact array operations the source performs (push, one-argument
  splice at indexOf);
* promise settlement is modelled by outcomes tagged with the
  cooperative-scheduler step at which they settle (pending, fulfilled at t,
  rejected at t);
* cooperative cancellation is modelled by the value of the boolean
  cancelled flag at each checkpoint: the flag is written only by the
  onCancel callback, which runs while the loop is suspended, so its value
  observed at iteration i is an arbitrary boolean function of i (monotone
  in any real run, but the proofs do not need that).

The collaborators outside src (CancellablePromise, Future, gracefullyCancel
from utils.js; the TTS engine; the playout subsystem) are modelled at their
interface as the spec describes them: a Future resolves at most once and
never rejects, a CancellablePromise settles when its executor resolves or
throws, gracefullyCancel is an async cancel-then-join.
-/

/-- An entry of the synthesis queue (agent_output.ts lines 20-23): either an
audio frame (opaque payload, modelled by a natural number) or the unique
FLUSH_SENTINEL symbol (line 14). -/
inductive QueueEntry
  | frame (payload : ℕ)
  | flushSentinel
  deriving DecidableEq, Repr

/-- An event pulled from the TTS engine's SynthesizeStream: a non-terminal
event carrying one audio frame, or the distinguished END_OF_STREAM marker. -/
inductive TTSEvent
  | audio (frame : ℕ)
  | endOfStream
  deriving DecidableEq, Repr

/-- True exactly on the flush-sentinel queue entry. -/
def isFlushWrite : QueueEntry → Bool
  | QueueEntry.flushSentinel => true
  | QueueEntry.frame _ => false

/-- The queue writes performed by the for-await loop of stringSynthesisTask
(lines 142-147). The argument evs is the finite sequence of events the
engine stream yields in order; c i is the value of the cancelled flag at
the check of iteration i. The source checks the flag and END_OF_STREAM in
one condition and breaks on either, writing the frame otherwise; a raised
flag on an END_OF_STREAM iteration breaks with the same result, so the two
break conditions are split into patterns here. -/
def stringSynthesisLoop : List TTSEvent → (ℕ → Bool) → ℕ → List QueueEntry
  | [], _, _ => []
  | TTSEvent.endOfStream :: _, _, _ => []
  | TTSEvent.audio f :: rest, c, i =>
    if c i then [] else QueueEntry.frame f :: stringSynthesisLoop rest c (i + 1)

/-- All queue writes performed by one completed run of stringSynthesisTask
(lines 128-153): the loop's frames followed by the single FLUSH_SENTINEL
write of line 148, which is reached on every exit path of the loop (normal
END_OF_STREAM exit, exhausted engine stream, or cooperative cancellation). -/
def stringSynthesisTaskWrites (evs : List TTSEvent) (c : ℕ → Bool) : List QueueEntry :=
  stringSynthesisLoop evs c 0 ++ [QueueEntry.flushSentinel]

/-- The queue writes performed by the for-await loop of readGeneratedAudio
inside streamSynthesisTask (lines 169-176): same shape as the whole-string
loop, with the cancelled check and the END_OF_STREAM check as two separate
breaks. -/
def readGeneratedAudioLoop : List TTSEvent → (ℕ → Bool) → ℕ → List QueueEntry
  | [], _, _ => []
  | TTSEvent.endOfStream :: _, _, _ => []
  | TTSEvent.audio f :: rest, c, i =>
    if c i then [] else QueueEntry.frame f :: readGeneratedAudioLoop rest c (i + 1)

/-- All queue writes performed by one completed run of readGeneratedAudio
(lines 169-179): the relay's frames followed by the single FLUSH_SENTINEL
write of line 177, reached on every exit path. -/
def readGeneratedAudioWrites (evs : List TTSEvent) (c : ℕ → Bool) : List QueueEntry :=
  readGeneratedAudioLoop evs c 0 ++ [QueueEntry.flushSentinel]

theorem stringSynthesisLoop_no_flush (evs : List TTSEvent) (c : ℕ → Bool) (i : ℕ) :
    ∀ e ∈ stringSynthesisLoop evs c i, isFlushWrite e = false := by
  induction evs generalizing i with
  | nil => intro e he; simp [stringSynthesisLoop] at he
  | cons ev rest ih =>
    intro e he
    cases ev with
    | endOfStream => simp [stringSynthesisLoop] at he
    | audio f =>
      rw [stringSynthesisLoop] at he
      by_cases h : c i
      · simp [h] at he
      · simp [h] at he
        rcases he with h1 | h1
        · rw [h1]; rfl
        · exact ih (i + 1) e h1

theorem readGeneratedAudioLoop_no_flush (evs : List TTSEvent) (c : ℕ → Bool) (i : ℕ) :
    ∀ e ∈ readGeneratedAudioLoop evs c i, isFlushWrite e = false := by
  induction evs generalizing i with
  | nil => intro e he; simp [readGeneratedAudioLoop] at he
  | cons ev rest ih =>
    intro e he
    cases ev with
    | endOfStream => simp [readGeneratedAudioLoop] at he
    | audio f =>
      rw [readGeneratedAudioLoop] at he
      by_cases h : c i
      · simp [h] at he
      · simp [h] at he
        rcases he with h1 | h1
        · rw [h1]; rfl
        · exact ih (i + 1) e h1

theorem countP_flush_concat (l : List QueueEntry)
    (hl : ∀ e ∈ l, isFlushWrite e = false) :
    List.countP isFlushWrite (l ++ [QueueEntry.flushSentinel]) = 1 := by
  rw [List.countP_append]
  have h0 : List.countP isFlushWrite l = 0 := by
    rw [List.countP_eq_zero]
    intro a ha
    simp [hl a ha]
  rw [h0]
  rfl

/-- C1: for every completed run of either synthesis-task variant
(whole-string or incremental-stream relay), under any engine event sequence
and any cooperative-cancellation schedule, exactly one flush sentinel is
written to the queue and it is the last entry written, so every audio frame
written by the task precedes it. -/
theorem flush_marker_once_and_last (evs evs2 : List TTSEvent) (c c2 : ℕ → Bool) :
    List.countP isFlushWrite (stringSynthesisTaskWrites evs c) = 1 ∧
    (stringSynthesisTaskWrites evs c).getLast? = some QueueEntry.flushSentinel ∧
    List.countP isFlushWrite (readGeneratedAudioWrites evs2 c2) = 1 ∧
    (readGeneratedAudioWrites evs2 c2).getLast? = some QueueEntry.flushSentinel := by
  refine ⟨?_, ?_, ?_, ?_⟩
  · exact countP_flush_concat _ (stringSynthesisLoop_no_flush evs c 0)
  · rw [stringSynthesisTaskWrites, List.getLast?_concat]
  · exact countP_flush_concat _ (readGeneratedAudioLoop_no_flush evs2 c2 0)
  · rw [readGeneratedAudioWrites, List.getLast?_concat]

/-- C1 witness: the property evaluated on a concrete run of each variant,
one frame then END_OF_STREAM with no cancellation for the whole-string task,
and a run cancelled at the first checkpoint for the stream relay. -/
theorem flush_marker_once_and_last_witness :
    List.countP isFlushWrite
      (stringSynthesisTaskWrites [TTSEvent.audio 7, TTSEvent.endOfStream] (fun _ => false)) = 1 ∧
    (stringSynthesisTaskWrites [TTSEvent.audio 7, TTSEvent.endOfStream]
      (fun _ => false)).getLast? = some QueueEntry.flushSentinel ∧
    List.countP isFlushWrite
      (readGeneratedAudioWrites [TTSEvent.audio 3] (fun _ => true)) = 1 ∧
    (readGeneratedAudioWrites [TTSEvent.audio 3]
      (fun _ => true)).getLast? = some QueueEntry.flushSentinel :=
  flush_marker_once_and_last [TTSEvent.audio 7, TTSEvent.endOfStream] [TTSEvent.audio 3]
    (fun _ => false) (fun _ => true)

/-- Errors thrown by SynthesisHandle: the InterruptedError of the spec's
taxonomy, thrown by play() on line 54 as new Error with the message
about interrupted synthesis. -/
inductive SynthError
  | interrupted
  deriving DecidableEq, Repr

/-- Externally observable side effects of a SynthesisHandle operation. -/
inductive HandleEvent
  | registerPlayout (id : ℕ)
  | forwardInterrupt
  | setInterruptSignal
  deriving DecidableEq, Repr

/-- Mutable state of one SynthesisHandle (agent_output.ts lines 13-33):
interrupted is intFut.done, playHandle is the optional playout handle
(identified by the number the playout subsystem returned), and assignCount
is a ghost counter of how many times the private playHandle field has been
assigned. -/
structure HandleState where
  interrupted : Bool
  playHandle : Option ℕ
  assignCount : ℕ
  deriving DecidableEq, Repr

/-- A freshly constructed handle (constructor on lines 28-33): the interrupt
future is unresolved, no playout handle exists, nothing assigned yet. -/
def initHandle : HandleState := ⟨false, none, 0⟩

/-- SynthesisHandle.play (lines 52-59). If the handle is interrupted it
throws before touching the playout subsystem, so no queue registration
occurs and no event is emitted; otherwise it registers the queue's read
side with agentPlayout.play, which returns the playout handle newId, and
assigns the playHandle field. -/
def SynthesisHandle.play (s : HandleState) (newId : ℕ) :
    Except SynthError (HandleState × ℕ) × List HandleEvent :=
  if s.interrupted then (Except.error SynthError.interrupted, [])
  else
    (Except.ok ({ s with playHandle := some newId, assignCount := s.assignCount + 1 }, newId),
     [HandleEvent.registerPlayout newId])

/-- SynthesisHandle.interrupt (lines 62-70). If already interrupted it
returns at once with no effect; otherwise it forwards the interruption to
the playout handle when one exists (optional chaining on line 68) and then
resolves the interrupt future. The function is total: interrupt never
throws. -/
def SynthesisHandle.interrupt (s : HandleState) : HandleState × List HandleEvent :=
  if s.interrupted then (s, [])
  else
    ({ s with interrupted := true },
     (if s.playHandle.isSome then [HandleEvent.forwardInterrupt] else []) ++
       [HandleEvent.setInterruptSignal])

/-- An operation performed on a handle by its caller. -/
inductive HandleOp
  | doPlay (newId : ℕ)
  | doInterrupt
  deriving DecidableEq, Repr

/-- Run one caller operation against the handle state; a play() call that
throws leaves the state unchanged. -/
def runHandleOp (s : HandleState) : HandleOp → HandleState
  | HandleOp.doPlay n =>
    match SynthesisHandle.play s n with
    | (Except.ok (s2, _), _) => s2
    | (Except.error _, _) => s
  | HandleOp.doInterrupt => (SynthesisHandle.interrupt s).1

/-- Run a sequence of caller operations against the handle state. -/
def runHandleOps (s : HandleState) (ops : List HandleOp) : HandleState :=
  ops.foldl runHandleOp s

/-- True exactly on play() operations. -/
def isPlayOp : HandleOp → Bool
  | HandleOp.doPlay _ => true
  | HandleOp.doInterrupt => false

theorem interrupted_monotone (s : HandleState) (ops : List HandleOp)
    (h : s.interrupted = true) : (runHandleOps s ops).interrupted = true := by
  induction ops generalizing s with
  | nil => exact h
  | cons op rest ih =>
    have hstep : (runHandleOp s op).interrupted = true := by
      cases op with
      | doPlay n => simp [runHandleOp, SynthesisHandle.play, h]
      | doInterrupt => simp [runHandleOp, SynthesisHandle.interrupt, h]
    exact ih (runHandleOp s op) hstep

/-- C3: once interrupt() has been called on a handle, any later play() call,
after any further sequence of caller operations, throws InterruptedError and
emits no event: the queue's read side is never handed to the playout
subsystem and no playout handle is created or stored. -/
theorem play_after_interrupt_fails (s : HandleState) (ops : List HandleOp) (n : ℕ) :
    SynthesisHandle.play (runHandleOps (SynthesisHandle.interrupt s).1 ops) n
      = (Except.error SynthError.interrupted, []) := by
  have h1 : ((SynthesisHandle.interrupt s).1).interrupted = true := by
    by_cases h : s.interrupted <;> simp [SynthesisHandle.interrupt, h]
  have h2 := interrupted_monotone _ ops h1
  simp [SynthesisHandle.play, h2]

/-- C3 witness: a fresh handle is interrupted, then play() is attempted
directly; the call fails with InterruptedError and emits no event. -/
theorem play_after_interrupt_fails_witness :
    SynthesisHandle.play (runHandleOps (SynthesisHandle.interrupt initHandle).1 []) 5
      = (Except.error SynthError.interrupted, []) :=
  play_after_interrupt_fails initHandle [] 5

/-- C8: interrupt() is idempotent and never throws (it is a total function
of the state): a second interrupt() on the state left by a first one
changes nothing and emits no event, so N repeated calls have the effect of
one; and the events of any single call are exactly none when already
interrupted, and otherwise the forwarding of the interruption to the
playout handle (when one exists) followed by the resolution of the
interrupt signal, in that order. -/
theorem interrupt_idempotent_and_ordered (s : HandleState) :
    SynthesisHandle.interrupt (SynthesisHandle.interrupt s).1
      = ((SynthesisHandle.interrupt s).1, []) ∧
    (SynthesisHandle.interrupt s).2 =
      (if s.interrupted then []
       else (if s.playHandle.isSome then [HandleEvent.forwardInterrupt] else []) ++
         [HandleEvent.setInterruptSignal]) := by
  obtain ⟨i, p, a⟩ := s
  cases i <;> simp [SynthesisHandle.interrupt]

/-- C8 witness: evaluated on a validated, not yet interrupted handle: the
first call forwards to the playout handle and then sets the signal; the
second call is a no-op. -/
theorem interrupt_idempotent_and_ordered_witness :
    SynthesisHandle.interrupt (SynthesisHandle.interrupt ⟨false, some 4, 1⟩).1
      = ((SynthesisHandle.interrupt ⟨false, some 4, 1⟩).1, []) ∧
    (SynthesisHandle.interrupt (⟨false, some 4, 1⟩ : HandleState)).2 =
      (if (⟨false, some 4, 1⟩ : HandleState).interrupted then []
       else (if (⟨false, some 4, 1⟩ : HandleState).playHandle.isSome
         then [HandleEvent.forwardInterrupt] else []) ++
         [HandleEvent.setInterruptSignal]) :=
  interrupt_idempotent_and_ordered ⟨false, some 4, 1⟩

/-- C4 counterexample: the claim says playoutHandle is assigned at most once
over the handle's lifetime regardless of how many times play() is called,
but two successful play() calls on a fresh handle assign the field twice
(line 57 reassigns unconditionally). -/
theorem playout_reassigned_on_second_play :
    (runHandleOps initHandle [HandleOp.doPlay 1, HandleOp.doPlay 2]).assignCount = 2 ∧
    ¬ (runHandleOps initHandle [HandleOp.doPlay 1, HandleOp.doPlay 2]).assignCount ≤ 1 := by
  constructor
  · rfl
  · decide

/-- C4 amended: playoutHandle is assigned at most once per play() call, so
over any sequence of caller operations the number of assignments is bounded
by the number of play() calls; it is assigned at most once in any lifetime
that calls play() at most once. -/
theorem playout_assignments_at_most_play_calls (s : HandleState) (ops : List HandleOp) :
    (runHandleOps s ops).assignCount ≤ s.assignCount + List.countP isPlayOp ops := by
  induction ops generalizing s with
  | nil => simp [runHandleOps]
  | cons op rest ih =>
    have hstep : (runHandleOp s op).assignCount ≤
        s.assignCount + (if isPlayOp op then 1 else 0) := by
      cases op with
      | doPlay n =>
        by_cases h : s.interrupted <;>
          simp [runHandleOp, SynthesisHandle.play, isPlayOp, h]
      | doInterrupt =>
        by_cases h : s.interrupted <;>
          simp [runHandleOp, SynthesisHandle.interrupt, isPlayOp, h]
    have htail := ih (runHandleOp s op)
    have hcount : List.countP isPlayOp (op :: rest) =
        List.countP isPlayOp rest + (if isPlayOp op then 1 else 0) := by
      rw [List.countP_cons]
    have hfold : runHandleOps s (op :: rest) = runHandleOps (runHandleOp s op) rest := rfl
    rw [hfold, hcount]
    omega

/-- C4 amended witness: one play() call on a fresh handle yields at most one
assignment. -/
theorem playout_assignments_at_most_play_calls_witness :
    (runHandleOps initHandle [HandleOp.doPlay 1]).assignCount ≤
      initHandle.assignCount + List.countP isPlayOp [HandleOp.doPlay 1] :=
  playout_assignments_at_most_play_calls initHandle [HandleOp.doPlay 1]

/-- A control or text signal sent to the TTS engine's synthesis stream. -/
inductive EngineSignal
  | pushText (chunk : String)
  | flushSignal
  | endInputSignal
  deriving DecidableEq, Repr

/-- True exactly on the flush signal. -/
def isFlushSignal : EngineSignal → Bool
  | EngineSignal.flushSignal => true
  | _ => false

/-- True exactly on the end-of-input signal. -/
def isEndInputSignal : EngineSignal → Bool
  | EngineSignal.endInputSignal => true
  | _ => false

/-- The pushes performed by the text-feed loop of streamSynthesisTask
(lines 182-185): each iteration pulls the next chunk from the input
sequence, checks the cancelled flag, and pushes the chunk to the engine
unless the flag is raised; c i is the value of the flag at the check of
iteration i. -/
def streamFeedLoop : List String → (ℕ → Bool) → ℕ → List EngineSignal
  | [], _, _ => []
  | t :: rest, c, i =>
    if c i then [] else EngineSignal.pushText t :: streamFeedLoop rest c (i + 1)

/-- Everything the text-feed path of streamSynthesisTask sends to the
engine (lines 182-187): the loop's pushes, then — unconditionally, whether
the input ended or cancellation stopped the pull early — one flush and one
end-of-input signal. -/
def streamFeedSignals (chunks : List String) (c : ℕ → Bool) : List EngineSignal :=
  streamFeedLoop chunks c 0 ++ [EngineSignal.flushSignal, EngineSignal.endInputSignal]

theorem streamFeedLoop_threshold (chunks : List String) (k i : ℕ) :
    streamFeedLoop chunks (fun j => decide (k ≤ j)) i
      = (chunks.take (k - i)).map EngineSignal.pushText := by
  induction chunks generalizing i with
  | nil => simp [streamFeedLoop]
  | cons t rest ih =>
    rw [streamFeedLoop]
    by_cases h : k ≤ i
    · have h0 : k - i = 0 := by omega
      simp [h, h0]
    · have h1 : k - i = (k - (i + 1)) + 1 := by omega
      simp only [decide_eq_true_eq, if_neg h, h1, List.take_succ_cons, List.map_cons]
      rw [ih (i + 1)]

theorem streamFeedLoop_only_pushes (chunks : List String) (c : ℕ → Bool) (i : ℕ) :
    ∀ e ∈ streamFeedLoop chunks c i, isFlushSignal e = false ∧ isEndInputSignal e = false := by
  induction chunks generalizing i with
  | nil => intro e he; simp [streamFeedLoop] at he
  | cons t rest ih =>
    intro e he
    rw [streamFeedLoop] at he
    by_cases h : c i
    · simp [h] at he
    · simp [h] at he
      rcases he with h1 | h1
      · rw [h1]; exact ⟨rfl, rfl⟩
      · exact ih (i + 1) e h1

/-- C7: behaviour of the incremental-stream feed. The cancelled flag is
checked before each push (the loop recursion pushes chunk i only when the
flag at checkpoint i is down). For the flag raised while the feed awaits
pull k — so the chunks yielded by the lazy input sequence before the
cancellation request are exactly the first k — the signals sent to the
engine are exactly those k pushes followed by flush and end-of-input, so
the engine never receives end-of-input before every chunk yielded prior to
cancellation has been pushed; and under any cancellation schedule at all,
flush and end-of-input are each sent exactly once, with end-of-input last. -/
theorem stream_feed_pushes_prefix_then_flush_end (chunks : List String) (k : ℕ) (c : ℕ → Bool) :
    streamFeedSignals chunks (fun j => decide (k ≤ j))
      = (chunks.take k).map EngineSignal.pushText ++
        [EngineSignal.flushSignal, EngineSignal.endInputSignal] ∧
    List.countP isFlushSignal (streamFeedSignals chunks c) = 1 ∧
    List.countP isEndInputSignal (streamFeedSignals chunks c) = 1 ∧
    (streamFeedSignals chunks c).getLast? = some EngineSignal.endInputSignal := by
  refine ⟨?_, ?_, ?_, ?_⟩
  · rw [streamFeedSignals, streamFeedLoop_threshold chunks k 0, Nat.sub_zero]
  · rw [streamFeedSignals, List.countP_append]
    have h0 : List.countP isFlushSignal (streamFeedLoop chunks c 0) = 0 := by
      rw [List.countP_eq_zero]
      intro a ha
      simp [(streamFeedLoop_only_pushes chunks c 0 a ha).1]
    rw [h0]
    rfl
  · rw [streamFeedSignals, List.countP_append]
    have h0 : List.countP isEndInputSignal (streamFeedLoop chunks c 0) = 0 := by
      rw [List.countP_eq_zero]
      intro a ha
      simp [(streamFeedLoop_only_pushes chunks c 0 a ha).2]
    rw [h0]
    rfl
  · rw [streamFeedSignals]
    have h2 : streamFeedLoop chunks c 0 ++
        [EngineSignal.flushSignal, EngineSignal.endInputSignal]
        = (streamFeedLoop chunks c 0 ++ [EngineSignal.flushSignal]) ++
          [EngineSignal.endInputSignal] := by
      rw [List.append_assoc]
      rfl
    rw [h2, List.getLast?_concat]

/-- C7 witness: input chunks a, b, c with the cancellation request landing
while the feed awaits the third pull: the engine receives exactly the
pushes of a and b, then flush, then end-of-input. -/
theorem stream_feed_pushes_prefix_then_flush_end_witness :
    streamFeedSignals ["a", "b", "c"] (fun j => decide (2 ≤ j))
      = (["a", "b", "c"].take 2).map EngineSignal.pushText ++
        [EngineSignal.flushSignal, EngineSignal.endInputSignal] ∧
    List.countP isFlushSignal (streamFeedSignals ["a", "b", "c"] (fun j => decide (2 ≤ j))) = 1 ∧
    List.countP isEndInputSignal
      (streamFeedSignals ["a", "b", "c"] (fun j => decide (2 ≤ j))) = 1 ∧
    (streamFeedSignals ["a", "b", "c"]
      (fun j => decide (2 ≤ j))).getLast? = some EngineSignal.endInputSignal :=
  stream_feed_pushes_prefix_then_flush_end ["a", "b", "c"] 2 (fun j => decide (2 ≤ j))

/-- State of the AgentOutput orchestrator (lines 73-98). The field tasks is
the private tasks array, holding the identifiers of the supervising tasks in
launch order; launched and completed are ghost histories recording every
task ever launched and every task whose promise has settled, so that the
live set (launched and not yet completed) can be compared with the array. -/
structure OrchState where
  tasks : List ℕ
  launched : List ℕ
  completed : List ℕ
  deriving DecidableEq, Repr

/-- The splice performed by the completion callback on line 96:
tasks.splice(tasks.indexOf(task)) with a single argument. JavaScript
one-argument splice removes every element from the start index to the end
of the array; when the task is absent, indexOf returns -1 and splice(-1)
removes the last element (and leaves an empty array empty). -/
def spliceCompleted (tasks : List ℕ) (t : ℕ) : List ℕ :=
  if t ∈ tasks then tasks.take (List.indexOf t tasks) else tasks.dropLast

/-- An orchestrator transition: a synthesize() call launching a new
supervising task, or the settlement of a launched task firing the finally
callback of line 96. -/
inductive OrchOp
  | synthesizeOp (id : ℕ)
  | completeTaskOp (id : ℕ)
  deriving DecidableEq, Repr

/-- One orchestrator transition. synthesize (lines 92-98) pushes the new
task onto the tasks array; the completion of a task runs the splice of
line 96. -/
def orchStep (s : OrchState) : OrchOp → OrchState
  | OrchOp.synthesizeOp i =>
    { s with tasks := s.tasks ++ [i], launched := s.launched ++ [i] }
  | OrchOp.completeTaskOp i =>
    { s with tasks := spliceCompleted s.tasks i, completed := s.completed ++ [i] }

/-- Run a sequence of orchestrator transitions from the empty initial state
(constructor, lines 78-81). -/
def runOrch (ops : List OrchOp) : OrchState :=
  ops.foldl orchStep ⟨[], [], []⟩

/-- The tasks that are actually still in flight: launched and not completed. -/
def liveTasks (s : OrchState) : List ℕ :=
  s.launched.filter (fun i => !(s.completed.contains i))

/-- The set of tasks close() cancels and awaits (lines 87-90): exactly the
current contents of the tasks array, via forEach cancel and
Promise.all(this.tasks). close() returns once every member of this list has
completed, and immediately when the list is empty. -/
def closeWaitsFor (s : OrchState) : List ℕ :=
  s.tasks

/-- C5 failing run: two supervising tasks are launched and the first one
completes while the second is still in flight. The one-argument splice of
line 96 truncates the tasks array from the completed task's index, so the
array becomes empty: the still-live task 1 has been removed from the live
set even though the claim says every other still-live task remains. -/
theorem task_completion_truncates_task_list :
    (runOrch [OrchOp.synthesizeOp 0, OrchOp.synthesizeOp 1,
      OrchOp.completeTaskOp 0]).tasks = [] ∧
    liveTasks (runOrch [OrchOp.synthesizeOp 0, OrchOp.synthesizeOp 1,
      OrchOp.completeTaskOp 0]) = [1] := by
  constructor
  · rfl
  · rfl

/-- C9 failing run: after the same history (task 5 and task 7 launched,
task 5 completed first, truncating the array), close() cancels and awaits
the members of the now-empty tasks array and therefore returns immediately,
while task 7 is still live: close() does not wait for every previously-live
task. -/
theorem close_returns_while_task_live :
    closeWaitsFor (runOrch [OrchOp.synthesizeOp 5, OrchOp.synthesizeOp 7,
      OrchOp.completeTaskOp 5]) = [] ∧
    liveTasks (runOrch [OrchOp.synthesizeOp 5, OrchOp.synthesizeOp 7,
      OrchOp.completeTaskOp 5]) = [7] := by
  constructor
  · rfl
  · rfl

/-- Settlement of a promise under the cooperative scheduler: forever
pending, fulfilled at step t, or rejected at step t. -/
inductive POutcome
  | pending
  | fulfilled (t : ℕ)
  | rejected (t : ℕ)
  deriving DecidableEq, Repr

/-- JavaScript Promise.any over two promises: it fulfills as soon as the
first of them fulfills, rejects only when both have rejected (with an
AggregateError, once the later rejection arrives), and otherwise stays
pending. -/
def promiseAny : POutcome → POutcome → POutcome
  | POutcome.fulfilled t, POutcome.fulfilled u => POutcome.fulfilled (min t u)
  | POutcome.fulfilled t, _ => POutcome.fulfilled t
  | _, POutcome.fulfilled u => POutcome.fulfilled u
  | POutcome.rejected t, POutcome.rejected u => POutcome.rejected (max t u)
  | _, _ => POutcome.pending

/-- The handle's interrupt future as a promise outcome: intFut is a Future,
which can only be resolved (by interrupt(), line 69), never rejected, so it
is fulfilled at the interrupt step or forever pending. -/
def intFutOutcome : Option ℕ → POutcome
  | some t => POutcome.fulfilled t
  | none => POutcome.pending

/-- Settlement of the supervising task created by AgentOutput.synthesize
(executor of lines 102-124), as a function of the settlement of the chosen
variant task and of the step at which the handle is interrupted (none when
it never is). The executor awaits exactly one thing: Promise.any of the
variant task and intFut.await (line 116). After that await, the finally
block runs gracefullyCancel(task) without awaiting the promise it returns
(line 119) and resolve() follows on line 123 in the same step, so a
fulfilled race fulfills the supervisor at the very step the race completed;
a throwing await rejects the executor and hence the CancellablePromise; a
forever-pending race leaves the supervisor forever pending. -/
def supervisorOutcome (task : POutcome) (intAt : Option ℕ) : POutcome :=
  match promiseAny task (intFutOutcome intAt) with
  | POutcome.fulfilled t => POutcome.fulfilled t
  | POutcome.rejected t => POutcome.rejected t
  | POutcome.pending => POutcome.pending

/-- C2: the supervising task resolves at the interrupt step itself, not
after the cancelled variant has unwound. The hypothesis says the interrupt
fires at step ti while the variant is still running, and the cooperatively
cancelled variant only finishes its cleanup (mandatory flush-sentinel
write at the next checkpoint) at the later step tDone; the supervisor
nevertheless fulfills already at ti, because line 119 discards the promise
returned by gracefullyCancel instead of awaiting it. This refutes the
claim that the supervisor completes only after the variant's cancellation
has actually finished. -/
theorem supervisor_resolves_at_interrupt_step (tDone ti : ℕ) (h : ti < tDone) :
    supervisorOutcome (POutcome.fulfilled tDone) (some ti) = POutcome.fulfilled ti := by
  have hmin : min tDone ti = ti := Nat.min_eq_right (Nat.le_of_lt h)
  simp [supervisorOutcome, promiseAny, intFutOutcome, hmin]

/-- C2 witness: interrupt at step 3, cancelled variant unwinds at step 4;
the supervisor has already fulfilled at step 3. -/
theorem supervisor_resolves_at_interrupt_step_witness :
    (3 : ℕ) < 4 ∧
    supervisorOutcome (POutcome.fulfilled 4) (some 3) = POutcome.fulfilled 3 :=
  ⟨by decide, supervisor_resolves_at_interrupt_step 4 3 (by decide)⟩

/-- C6 failing runs: a TTS-engine failure rejects the variant task, but the
supervising task never propagates it. With the handle never interrupted,
Promise.any of the rejected task and the forever-pending intFut is forever
pending, so the supervisor never settles; with the handle interrupted at
step 2, the race fulfills and the supervisor resolves successfully at step
2, swallowing the rejection of step 5. Both contradict the claim that the
supervising task settles by propagating the error. -/
theorem engine_error_not_propagated :
    supervisorOutcome (POutcome.rejected 0) none = POutcome.pending ∧
    supervisorOutcome (POutcome.rejected 5) (some 2) = POutcome.fulfilled 2 := by
  constructor
  · rfl
  · rfl

/-- An observable event of one streamSynthesisTask run: a signal sent to
the engine by the text feed, a queue write performed by the relay, or the
resolution of the task's own promise. -/
inductive StreamEvent
  | engineSignal (sig : EngineSignal)
  | queueWrite (entry : QueueEntry)
  | taskResolved
  deriving DecidableEq, Repr

/-- True exactly on queue-write events. -/
def isQueueWriteEvent : StreamEvent → Bool
  | StreamEvent.queueWrite _ => true
  | _ => false

/-- Trace of one uninterrupted streamSynthesisTask run (lines 155-191) with
a TTS engine that emits its audio only after receiving end-of-input (a
behaviour the engine interface permits). readGeneratedAudio is started on
line 180 but never awaited; the executor then runs the feed loop, sends
flush and endInput (lines 186-187) and calls resolve() on line 189 in the
same step, while the relay is still suspended on the engine's first output
event. The engine's events, and with them every queue write of the relay
including the final FLUSH_SENTINEL of line 177, therefore come after the
task has resolved. -/
def streamSynthesisTaskTraceLateAudio (chunks : List String) (audio : List ℕ) :
    List StreamEvent :=
  (chunks.map (fun t => StreamEvent.engineSignal (EngineSignal.pushText t))) ++
    [StreamEvent.engineSignal EngineSignal.flushSignal,
     StreamEvent.engineSignal EngineSignal.endInputSignal,
     StreamEvent.taskResolved] ++
    (audio.map (fun f => StreamEvent.queueWrite (QueueEntry.frame f))) ++
    [StreamEvent.queueWrite QueueEntry.flushSentinel]

/-- C10: in the incremental-stream variant the task's promise resolves as
soon as the text feed has finished and flush and end-of-input have been
sent, without waiting for the audio relay: in the valid run traced by
streamSynthesisTaskTraceLateAudio, the trace splits at the resolution
event, no queue write precedes it, and every audio frame and the flush
sentinel are written after it. -/
theorem stream_task_resolves_before_relay_writes (chunks : List String) (audio : List ℕ) :
    ∃ pre post,
      streamSynthesisTaskTraceLateAudio chunks audio
        = pre ++ StreamEvent.taskResolved :: post ∧
      List.countP isQueueWriteEvent pre = 0 ∧
      StreamEvent.queueWrite QueueEntry.flushSentinel ∈ post ∧
      List.countP isQueueWriteEvent post = audio.length + 1 := by
  refine ⟨(chunks.map (fun t => StreamEvent.engineSignal (EngineSignal.pushText t))) ++
      [StreamEvent.engineSignal EngineSignal.flushSignal,
       StreamEvent.engineSignal EngineSignal.endInputSignal],
    (audio.map (fun f => StreamEvent.queueWrite (QueueEntry.frame f))) ++
      [StreamEvent.queueWrite QueueEntry.flushSentinel], ?_, ?_, ?_, ?_⟩
  · simp [streamSynthesisTaskTraceLateAudio]
  · rw [List.countP_append]
    have h0 : List.countP isQueueWriteEvent
        (chunks.map (fun t => StreamEvent.engineSignal (EngineSignal.pushText t))) = 0 := by
      rw [List.countP_eq_zero]
      intro a ha
      rcases List.mem_map.mp ha with ⟨t, _, ht⟩
      rw [← ht]
      simp [isQueueWriteEvent]
    rw [h0]
    rfl
  · exact List.mem_append_right _ (List.mem_singleton.mpr rfl)
  · rw [List.countP_append]
    have h1 : List.countP isQueueWriteEvent
        (audio.map (fun f => StreamEvent.queueWrite (QueueEntry.frame f))) = audio.length := by
      have h2 : List.countP isQueueWriteEvent
          (audio.map (fun f => StreamEvent.queueWrite (QueueEntry.frame f)))
          = (audio.map (fun f => StreamEvent.queueWrite (QueueEntry.frame f))).length := by
        rw [List.countP_eq_length]
        intro a ha
        rcases List.mem_map.mp ha with ⟨f, _, hf⟩
        rw [← hf]
        rfl
      rw [h2, List.length_map]
    rw [h1]
    rfl

/-- C10 witness: the run with chunks a, b and two late audio frames; the
task resolves before the relay writes the frames and the sentinel. -/
theorem stream_task_resolves_before_relay_writes_witness :
    ∃ pre post,
      streamSynthesisTaskTraceLateAudio ["a", "b"] [10, 11]
        = pre ++ StreamEvent.taskResolved :: post ∧
      List.countP isQueueWriteEvent pre = 0 ∧
      StreamEvent.queueWrite QueueEntry.flushSentinel ∈ post ∧
      List.countP isQueueWriteEvent post = [10, 11].length + 1 :=
  stream_task_resolves_before_relay_writes ["a", "b"] [10, 11]
